import Mathlib

/-!
Verification of the MondiChat backend core against its specification.

Strings are modelled as lists of Unicode codepoints (`Str := List Nat`), so
that the JavaScript character-level operations used by the source
(`trim`, `toUpperCase`, `toLowerCase`, `normalize("NFD")`, regex character
classes) become explicit computable functions.  The character tables cover
ASCII plus the Latin-1 letters exercised by the code's Spanish vocabulary;
this is noted at each table.
-/

/-- A string of the source program, as a list of Unicode codepoints. -/
abbrev Str : Type := List Nat

/-- Embed a Lean string literal as a codepoint list (used for concrete inputs). -/
def str (s : String) : Str := s.data.map Char.toNat

/-- JavaScript whitespace (the `\s` character class and `String.prototype.trim`):
space, tab, line feed, vertical tab, form feed, carriage return, NBSP,
line/paragraph separator, BOM. -/
def isWsN (n : Nat) : Bool :=
  n = 32 || n = 9 || n = 10 || n = 11 || n = 12 || n = 13 || n = 160 ||
  n = 8232 || n = 8233 || n = 65279

/-- The character class `[\s/]` of the source's `normalizeKey` regex. -/
def isWsSlash (n : Nat) : Bool := isWsN n || n = 47

/-- JavaScript `toUpperCase`, modelled on ASCII and the Latin-1 letters
(à..þ except ÷; ß and ÿ, which JS maps outside Latin-1, are left fixed). -/
def upN (n : Nat) : Nat :=
  if 97 ≤ n ∧ n ≤ 122 then n - 32
  else if 224 ≤ n ∧ n ≤ 254 ∧ n ≠ 247 ∧ n ≠ 223 ∧ n ≠ 255 then n - 32
  else n

/-- JavaScript `toLowerCase`, modelled on ASCII and Latin-1 letters. -/
def lowN (n : Nat) : Nat :=
  if 65 ≤ n ∧ n ≤ 90 then n + 32
  else if 192 ≤ n ∧ n ≤ 222 ∧ n ≠ 215 then n + 32
  else n

/-- First-match lookup in an association list (models JS object property access). -/
def lookupTab {κ α : Type} [DecidableEq κ] : List (κ × α) → κ → Option α
  | [], _ => none
  | (k, v) :: rest, n => if n = k then some v else lookupTab rest n

/-- Canonical decompositions (NFD) of the Latin-1 accented letters exercised
by the code's Spanish vocabulary. -/
def nfdTable : List (Nat × List Nat) :=
  [(224, [97, 768]), (225, [97, 769]), (228, [97, 776]),
   (232, [101, 768]), (233, [101, 769]), (235, [101, 776]),
   (236, [105, 768]), (237, [105, 769]), (239, [105, 776]),
   (242, [111, 768]), (243, [111, 769]), (246, [111, 776]),
   (249, [117, 768]), (250, [117, 769]), (252, [117, 776]),
   (241, [110, 771])]

/-- Canonical decomposition (NFD) of one codepoint; codepoints outside the
table decompose to themselves. -/
def nfdN (n : Nat) : List Nat :=
  match lookupTab nfdTable n with
  | some l => l
  | none => [n]

/-- The combining-mark range `[̀-ͯ]` stripped by `normalizeText`. -/
def isComb (n : Nat) : Bool := 768 ≤ n && n ≤ 879

/-- Drop the leading whitespace run (first half of JS `trim`). -/
def dropLeadWs (s : Str) : Str := List.dropWhile isWsN s

/-- Drop the trailing whitespace run (second half of JS `trim`). -/
def dropTrailWs : Str → Str
  | [] => []
  | c :: rest =>
    if dropTrailWs rest = [] ∧ isWsN c then [] else c :: dropTrailWs rest

/-- JavaScript `String.prototype.trim`. -/
def trimStr (s : Str) : Str := dropTrailWs (dropLeadWs s)

/-- Replace every maximal run of `[\s/]` characters by a single `_` (95):
the global regex replace of `normalizeKey`.  The flag records whether the
previous character was part of a run already replaced. -/
def replAux : Bool → Str → Str
  | _, [] => []
  | inRun, c :: rest =>
    if isWsSlash c then
      if inRun then replAux true rest else 95 :: replAux true rest
    else c :: replAux false rest

/-- `value.replace(/[\s\/]+/g, "_")`. -/
def replaceRuns (s : Str) : Str := replAux false s

/-- `normalizeKey` of `csvParser.ts` and the unnamed reconciler variant:
`value.trim().toUpperCase().replace(/[\s\/]+/g, "_")`. -/
def normalizeKey (s : Str) : Str := replaceRuns ((trimStr s).map upN)

/-- `normalizeText` of `aiAgent.ts`:
`value.toLowerCase().normalize("NFD").replace(/[̀-ͯ]/g, "")`. -/
def normalizeText (s : Str) : Str :=
  ((s.map lowN).flatMap nfdN).filter (fun n => !isComb n)

-- ### Idempotence infrastructure

theorem upN_idem (n : Nat) : upN (upN n) = upN n := by
  unfold upN; split_ifs <;> omega

theorem lowN_idem (n : Nat) : lowN (lowN n) = lowN n := by
  unfold lowN; split_ifs <;> omega

theorem dropLeadWs_head (s : Str) :
    dropLeadWs s = [] ∨ ∃ c rest, dropLeadWs s = c :: rest ∧ isWsN c = false := by
  induction s with
  | nil => exact Or.inl rfl
  | cons c rest ih =>
    by_cases h : isWsN c
    · simpa [dropLeadWs, List.dropWhile, h] using ih
    · exact Or.inr ⟨c, rest, by simp [dropLeadWs, List.dropWhile, h], by simpa using h⟩

theorem dropLeadWs_eq_self (s : Str)
    (h : s = [] ∨ ∃ c rest, s = c :: rest ∧ isWsN c = false) :
    dropLeadWs s = s := by
  rcases h with h | ⟨c, rest, rfl, hc⟩
  · simp [h, dropLeadWs]
  · simp [dropLeadWs, List.dropWhile, hc]

theorem dropTrailWs_head (c : Nat) (rest : Str) :
    dropTrailWs (c :: rest) = [] ∨ ∃ r, dropTrailWs (c :: rest) = c :: r := by
  unfold dropTrailWs
  split_ifs with h
  · exact Or.inl rfl
  · exact Or.inr ⟨dropTrailWs rest, rfl⟩

theorem dropTrailWs_idem (s : Str) : dropTrailWs (dropTrailWs s) = dropTrailWs s := by
  induction s with
  | nil => rfl
  | cons c rest ih =>
    show dropTrailWs (if dropTrailWs rest = [] ∧ isWsN c then [] else c :: dropTrailWs rest) =
      (if dropTrailWs rest = [] ∧ isWsN c then [] else c :: dropTrailWs rest)
    split_ifs with h
    · rfl
    · show (if dropTrailWs (dropTrailWs rest) = [] ∧ isWsN c then []
          else c :: dropTrailWs (dropTrailWs rest)) = c :: dropTrailWs rest
      rw [ih]
      exact if_neg h

theorem trimStr_idem (s : Str) : trimStr (trimStr s) = trimStr s := by
  unfold trimStr
  have hlead : dropLeadWs (dropTrailWs (dropLeadWs s)) = dropTrailWs (dropLeadWs s) := by
    apply dropLeadWs_eq_self
    rcases dropLeadWs_head s with h | ⟨c, rest, heq, hc⟩
    · left; rw [h]; rfl
    · rw [heq]
      rcases dropTrailWs_head c rest with h2 | ⟨r, h2⟩
      · exact Or.inl h2
      · exact Or.inr ⟨c, r, h2, hc⟩
  rw [hlead, dropTrailWs_idem]

theorem replAux_mem (b : Bool) (s : Str) :
    ∀ d ∈ replAux b s, d = 95 ∨ (d ∈ s ∧ isWsSlash d = false) := by
  induction s generalizing b with
  | nil => intro d hd; exact absurd hd (List.not_mem_nil d)
  | cons c rest ih =>
    intro d hd
    unfold replAux at hd
    split_ifs at hd with h1 h2
    · rcases ih true d hd with h | ⟨hmem, hns⟩
      · exact Or.inl h
      · exact Or.inr ⟨List.mem_cons_of_mem _ hmem, hns⟩
    · rcases List.mem_cons.mp hd with rfl | hd'
      · exact Or.inl rfl
      · rcases ih true d hd' with h | ⟨hmem, hns⟩
        · exact Or.inl h
        · exact Or.inr ⟨List.mem_cons_of_mem _ hmem, hns⟩
    · rcases List.mem_cons.mp hd with rfl | hd'
      · exact Or.inr ⟨List.mem_cons_self _ _, by simpa using h1⟩
      · rcases ih false d hd' with h | ⟨hmem, hns⟩
        · exact Or.inl h
        · exact Or.inr ⟨List.mem_cons_of_mem _ hmem, hns⟩

theorem replAux_eq_self (s : Str) (h : ∀ d ∈ s, isWsSlash d = false) :
    replAux false s = s := by
  induction s with
  | nil => rfl
  | cons c rest ih =>
    unfold replAux
    rw [if_neg (by simpa using h c (List.mem_cons_self _ _))]
    exact congrArg (c :: ·) (ih fun d hd => h d (List.mem_cons_of_mem _ hd))

theorem mem_normalizeKey_not_wsSlash (s : Str) :
    ∀ d ∈ normalizeKey s, isWsSlash d = false := by
  intro d hd
  rcases replAux_mem false _ d hd with rfl | ⟨_, hns⟩
  · rfl
  · exact hns

theorem mem_normalizeKey_upper_fixed (s : Str) :
    ∀ d ∈ normalizeKey s, upN d = d := by
  intro d hd
  rcases replAux_mem false _ d hd with rfl | ⟨hmem, _⟩
  · rfl
  · rcases List.mem_map.mp hmem with ⟨c, _, rfl⟩
    exact upN_idem c

theorem dropTrailWs_eq_self (s : Str) (h : ∀ d ∈ s, isWsN d = false) :
    dropTrailWs s = s := by
  induction s with
  | nil => rfl
  | cons c rest ih =>
    unfold dropTrailWs
    rw [if_neg]
    · exact congrArg (c :: ·) (ih fun d hd => h d (List.mem_cons_of_mem _ hd))
    · intro hcontra
      have := h c (List.mem_cons_self _ _)
      rw [hcontra.2] at this
      exact Bool.noConfusion this

theorem trimStr_eq_self (s : Str) (h : ∀ d ∈ s, isWsN d = false) :
    trimStr s = s := by
  unfold trimStr
  have h1 : dropLeadWs s = s := by
    apply dropLeadWs_eq_self
    cases s with
    | nil => exact Or.inl rfl
    | cons c rest => exact Or.inr ⟨c, rest, rfl, h c (List.mem_cons_self _ _)⟩
  rw [h1, dropTrailWs_eq_self s h]

theorem map_eq_self_of_fixed {f : Nat → Nat} (s : Str) (h : ∀ d ∈ s, f d = d) :
    s.map f = s := by
  induction s with
  | nil => rfl
  | cons c rest ih =>
    simp only [List.map_cons]
    rw [h c (List.mem_cons_self _ _), ih fun d hd => h d (List.mem_cons_of_mem _ hd)]

/-- `normalizeKey` is idempotent. -/
theorem normalizeKey_idem (s : Str) : normalizeKey (normalizeKey s) = normalizeKey s := by
  have hns := mem_normalizeKey_not_wsSlash s
  have hnw : ∀ d ∈ normalizeKey s, isWsN d = false := by
    intro d hd
    have := hns d hd
    unfold isWsSlash at this
    exact (Bool.or_eq_false_iff.mp this).1
  show replaceRuns ((trimStr (normalizeKey s)).map upN) = normalizeKey s
  rw [trimStr_eq_self _ hnw, map_eq_self_of_fixed _ (mem_normalizeKey_upper_fixed s)]
  exact replAux_eq_self _ hns

theorem lookupTab_mem {κ α : Type} [DecidableEq κ] (t : List (κ × α)) (k : κ) (v : α)
    (h : lookupTab t k = some v) : (k, v) ∈ t := by
  induction t with
  | nil => exact absurd h (by simp [lookupTab])
  | cons p rest ih =>
    unfold lookupTab at h
    split_ifs at h with he
    · cases h; cases p; cases he; exact List.mem_cons_self _ _
    · exact List.mem_cons_of_mem _ (ih h)

theorem nfdTable_output_fixed :
    ∀ p ∈ nfdTable, ∀ d ∈ p.2,
      isComb d = true ∨
      (lowN d = d ∧ lookupTab nfdTable d = none ∧ isComb d = false) := by
  decide

theorem lowN_fixed_of_nfd_base (m d : Nat) (hm : lowN m = m)
    (hd : d ∈ nfdN m) (hc : isComb d = false) :
    lowN d = d ∧ nfdN d = [d] ∧ isComb d = false := by
  unfold nfdN at hd
  cases hl : lookupTab nfdTable m with
  | none =>
    rw [hl] at hd
    rcases List.mem_singleton.mp hd with rfl
    exact ⟨hm, by unfold nfdN; rw [hl], hc⟩
  | some l =>
    rw [hl] at hd
    rcases nfdTable_output_fixed (m, l) (lookupTab_mem _ _ _ hl) d hd with h | ⟨h1, h2, h3⟩
    · rw [h] at hc; exact Bool.noConfusion hc
    · exact ⟨h1, by unfold nfdN; rw [h2], h3⟩

theorem flatMap_eq_self_of_single {f : Nat → List Nat} (s : Str)
    (h : ∀ d ∈ s, f d = [d]) : s.flatMap f = s := by
  induction s with
  | nil => rfl
  | cons c rest ih =>
    rw [List.flatMap_cons, h c (List.mem_cons_self _ _),
        ih fun d hd => h d (List.mem_cons_of_mem _ hd)]
    rfl

theorem mem_normalizeText_fixed (s : Str) :
    ∀ d ∈ normalizeText s, lowN d = d ∧ nfdN d = [d] ∧ isComb d = false := by
  intro d hd
  unfold normalizeText at hd
  rcases List.mem_filter.mp hd with ⟨hmem, hp⟩
  have hc : isComb d = false := by simpa using hp
  rcases List.mem_flatMap.mp hmem with ⟨m, hm, hdm⟩
  rcases List.mem_map.mp hm with ⟨c, _, rfl⟩
  exact lowN_fixed_of_nfd_base (lowN c) d (lowN_idem c) hdm hc

/-- `normalizeText` is idempotent. -/
theorem normalizeText_idem (s : Str) : normalizeText (normalizeText s) = normalizeText s := by
  have h := mem_normalizeText_fixed s
  show (((normalizeText s).map lowN).flatMap nfdN).filter _ = normalizeText s
  rw [map_eq_self_of_fixed _ (fun d hd => (h d hd).1),
      flatMap_eq_self_of_single _ (fun d hd => (h d hd).2.1)]
  exact List.filter_eq_self.mpr fun d hd => by simp [(h d hd).2.2]

/-- Claim C8: key normalization (`normalizeKey`: trim, uppercase, collapse
whitespace/slash runs to a single underscore) is idempotent, and query-text
normalization (`normalizeText`: lowercase, diacritic stripping) is idempotent. -/
theorem claim_C8 (s : Str) :
    normalizeKey (normalizeKey s) = normalizeKey s ∧
    normalizeText (normalizeText s) = normalizeText s :=
  ⟨normalizeKey_idem s, normalizeText_idem s⟩

-- ### Client State Classifier (`aiAgent.ts`)

/-- The character class `[\d.-]` kept by `parseNumber`'s regex
(`String(value).replace(/[^\d.-]/g, '')`). -/
def isNumChar (n : Nat) : Bool := (48 ≤ n && n ≤ 57) || n = 45 || n = 46

/-- `String(value).replace(/[^\d.-]/g, '')`: remove every character that is
not a digit, minus sign or decimal point. -/
def stripNum : Str → Str
  | [] => []
  | c :: rest => if isNumChar c then c :: stripNum rest else stripNum rest

/-- Numeric value of a digit string (codepoints 48-57). -/
def digitsVal (l : Str) : Nat := l.foldl (fun acc d => acc * 10 + (d - 48)) 0

/-- JS `Number(...)` on an unsigned string over the alphabet kept by
`stripNum`: digits, or digits-dot-digits with at least one digit; anything
else is NaN (`none`). -/
def parseUnsigned (t : Str) : Option ℚ :=
  let a := t.takeWhile isDigitN
  let r := t.drop a.length
  match r with
  | [] => if a = [] then none else some (digitsVal a)
  | 46 :: b =>
    if b.all isDigitN ∧ (a ≠ [] ∨ b ≠ []) then
      some ((digitsVal a : ℚ) + (digitsVal b : ℚ) / (10 : ℚ) ^ b.length)
    else none
  | _ => none
where isDigitN (n : Nat) : Bool := 48 ≤ n && n ≤ 57

/-- JS `Number(...)` applied to an already-stripped string: the empty string
coerces to `0`; an optional leading minus sign; `none` models NaN.  The model
uses exact rationals, so the float-overflow path to non-finiteness does not
arise; `Number.isFinite` failure coincides with parse failure (`none`). -/
def jsNumStripped (s : Str) : Option ℚ :=
  if s = [] then some 0
  else
    match s with
    | 45 :: t => (parseUnsigned t).map Neg.neg
    | _ => parseUnsigned s

/-- `parseNumber` of `aiAgent.ts`: `null`/`undefined` gives `null`; otherwise
strip non-numeric characters, coerce with `Number`, and return `null` unless
the result is a finite number. -/
def parseNumber (v : Option Str) : Option ℚ :=
  match v with
  | none => none
  | some s =>
    match jsNumStripped (stripNum s) with
    | some q => some q
    | none => none

theorem stripNum_eq_filter (s : Str) : stripNum s = s.filter isNumChar := by
  induction s with
  | nil => rfl
  | cons c rest ih =>
    unfold stripNum
    rw [List.filter_cons]
    split_ifs with h <;> simp [h, ih]

theorem stripNum_idem (s : Str) : stripNum (stripNum s) = stripNum s := by
  induction s with
  | nil => rfl
  | cons c rest ih =>
    show stripNum (if isNumChar c then c :: stripNum rest else stripNum rest) =
      (if isNumChar c then c :: stripNum rest else stripNum rest)
    split_ifs with h
    · show (if isNumChar c then c :: stripNum (stripNum rest)
          else stripNum (stripNum rest)) = c :: stripNum rest
      rw [if_pos h, ih]
    · exact ih

/-- Claim C3: the current-count coercion removes every character that is not
a digit, minus sign or decimal point before parsing (so parsing sees only the
stripped text, and stripping again changes nothing), and a value whose
stripped text fails to coerce to a finite number resolves to unknown
(`none`), never to zero. -/
theorem claim_C3 (s : Str) :
    stripNum s = s.filter isNumChar ∧
    parseNumber (some s) = parseNumber (some (stripNum s)) ∧
    (jsNumStripped (stripNum s) = none → parseNumber (some s) = none) ∧
    (jsNumStripped (stripNum s) = none → parseNumber (some s) ≠ some 0) := by
  refine ⟨stripNum_eq_filter s, ?_, ?_, ?_⟩
  · show (match jsNumStripped (stripNum s) with
      | some q => some q | none => none) =
      (match jsNumStripped (stripNum (stripNum s)) with
      | some q => some q | none => none)
    rw [stripNum_idem]
  · intro h; show (match jsNumStripped (stripNum s) with
      | some q => some q | none => none) = none
    rw [h]
  · intro h
    show (match jsNumStripped (stripNum s) with
      | some q => some q | none => none) ≠ some 0
    rw [h]
    exact Option.noConfusion

/-- Witness for C3 at the concrete value `"-"`: its stripped form `"-"` is
NaN under `Number`, and `parseNumber` yields `none`. -/
theorem claim_C3_witness : parseNumber (some (str "-")) = none :=
  (claim_C3 (str "-")).2.2.1 (by decide)

/-- The color states of the classifier, with the spec's order
NEGRO < ROJO < AMARILLO < VERDE; `nd` is the "unknown" state (`"N/D"`). -/
inductive Color where
  | negro | rojo | amarillo | verde | nd
deriving DecidableEq, Repr

/-- Rank realizing the order NEGRO < ROJO < AMARILLO < VERDE. -/
def colorRank : Color → Nat
  | .negro => 0
  | .rojo => 1
  | .amarillo => 2
  | .verde => 3
  | .nd => 4

/-- A threshold profile (`rojoMin`, `amarilloMin`, `verdeMin`). -/
structure Thresholds where
  rojoMin : ℚ
  amarilloMin : ℚ
  verdeMin : ℚ
deriving DecidableEq, Repr

/-- `getDefaultThresholds` of `aiAgent.ts`. -/
def getDefaultThresholds (type : Option Str) : Thresholds :=
  if type = some (str "K2") then ⟨1, 8, 12⟩
  else if type = some (str "K3") then ⟨1, 10, 14⟩
  else if type = some (str "L6") then ⟨1, 6, 9⟩
  else if type = some (str "L9") then ⟨1, 7, 11⟩
  else if type = some (str "MK") then ⟨1, 20, 30⟩
  else ⟨1, 8, 12⟩

/-- `computeColorInfo` of `aiAgent.ts`: classify a (possibly unknown) pack
count against a threshold profile, also reporting the distance to the next
tier. -/
def computeColorInfo (packsActual : Option ℚ) (th : Thresholds) : Color × Option ℚ :=
  match packsActual with
  | none => (.nd, none)
  | some p =>
    if p ≤ 0 then (.negro, some (max 0 (th.rojoMin - p)))
    else if p ≥ th.verdeMin then (.verde, some 0)
    else if p ≥ th.amarilloMin then (.amarillo, some (max 0 (th.verdeMin - p)))
    else (.rojo, some (max 0 (th.amarilloMin - p)))

/-- Claim C4: classification is monotonic.  For a well-formed threshold
profile (`amarilloMin ≤ verdeMin`) and known counts `c1 < c2`, the color of
`c1` is at most the color of `c2` in the NEGRO < ROJO < AMARILLO < VERDE
order. -/
theorem claim_C4 (th : Thresholds) (c1 c2 : ℚ)
    (hwf : th.amarilloMin ≤ th.verdeMin) (hlt : c1 < c2) :
    colorRank (computeColorInfo (some c1) th).1 ≤
      colorRank (computeColorInfo (some c2) th).1 := by
  show colorRank (if c1 ≤ 0 then (Color.negro, some (max 0 (th.rojoMin - c1)))
      else if c1 ≥ th.verdeMin then (Color.verde, some 0)
      else if c1 ≥ th.amarilloMin then (Color.amarillo, some (max 0 (th.verdeMin - c1)))
      else (Color.rojo, some (max 0 (th.amarilloMin - c1)))).1 ≤
    colorRank (if c2 ≤ 0 then (Color.negro, some (max 0 (th.rojoMin - c2)))
      else if c2 ≥ th.verdeMin then (Color.verde, some 0)
      else if c2 ≥ th.amarilloMin then (Color.amarillo, some (max 0 (th.verdeMin - c2)))
      else (Color.rojo, some (max 0 (th.amarilloMin - c2)))).1
  split_ifs <;> (try simp [colorRank]) <;> linarith

/-- Witness for C4: the default K2 profile with counts 5 < 20 gives
ROJO ≤ VERDE. -/
theorem claim_C4_witness :
    colorRank (computeColorInfo (some 5) (getDefaultThresholds (some (str "K2")))).1 ≤
      colorRank (computeColorInfo (some 20) (getDefaultThresholds (some (str "K2")))).1 :=
  claim_C4 (getDefaultThresholds (some (str "K2"))) 5 20 (by norm_num [getDefaultThresholds])
    (by norm_num)

-- ### Session pagination (`aiAgent.ts`)

/-- JS `v || d` on an optional number: `null`/`undefined` and `0` are falsy. -/
def jsOrNat (v : Option Nat) (d : Nat) : Nat :=
  match v with
  | some n => if n = 0 then d else n
  | none => d

/-- The slice/cursor/flag part of `buildPaginatedResponse`'s return value
(the rendered chat text is orchestration and is not modelled). -/
structure PageResult where
  slice : List Str
  nextIndex : Nat
  hasMore : Bool
deriving DecidableEq, Repr

/-- One per-user pagination state (`paginationState` map entry). -/
structure PagState where
  items : List Str
  index : Nat
deriving DecidableEq, Repr

/-- `buildPaginatedResponse` of `aiAgent.ts`:
`pageSize = customPageSize || 10`, `slice = items.slice(start, start+pageSize)`,
`nextIndex = start + slice.length`, `hasMore = nextIndex < items.length`. -/
def buildPaginatedResponse (items : List Str) (startIndex : Nat)
    (customPageSize : Option Nat) : PageResult :=
  let pageSize := jsOrNat customPageSize 10
  let slice := (items.drop startIndex).take pageSize
  { slice := slice
    nextIndex := startIndex + slice.length
    hasMore := decide (startIndex + slice.length < items.length) }

/-- The list-intent path of `processUserQuery`: page size is the requested
quantity when present (`requestedQuantity || 10`), the first page starts at
cursor 0, and the pagination state is kept only while `hasMore`. -/
def listPathUpdate (items : List Str) (requestedQuantity : Option Nat) :
    PageResult × Option PagState :=
  let pageSize := jsOrNat requestedQuantity 10
  let page := buildPaginatedResponse items 0 (some pageSize)
  (page, if page.hasMore then some ⟨items, page.nextIndex⟩ else none)

/-- The continuation ("ver más") path of `processUserQuery`: the next page is
always built with page size 10, the cursor advances, and the state is deleted
once `hasMore` is false. -/
def moreUpdate (st : PagState) : PageResult × Option PagState :=
  let page := buildPaginatedResponse st.items st.index (some 10)
  (page, if page.hasMore then some ⟨st.items, page.nextIndex⟩ else none)

/-- The claim's paging loop: take a first page (with the caller-selected page
size, as the list path does), then keep taking continuation pages of size 10
until `hasMore` is false.  The fuel argument only bounds the recursion; any
fuel above `items.length` is enough (see `claim_C5`). -/
def collectPages : Nat → List Str → Option Nat → Nat → List PageResult
  | 0, _, _, _ => []
  | fuel + 1, items, cps, cursor =>
    let p := buildPaginatedResponse items cursor cps
    if p.hasMore then p :: collectPages fuel items (some 10) p.nextIndex
    else [p]

theorem jsOrNat_pos (v : Option Nat) : 0 < jsOrNat v 10 := by
  unfold jsOrNat
  cases v with
  | none => decide
  | some n => dsimp only; split_ifs <;> omega

theorem take_length_take {α : Type} (l : List α) (n : Nat) :
    l.take (l.take n).length = l.take n := by
  rw [List.length_take]
  rcases Nat.le_total n l.length with h | h
  · rw [Nat.min_eq_left h]
  · rw [Nat.min_eq_right h, List.take_length, List.take_of_length_le h]


theorem getLast?_cons_ne {α : Type} (a : α) (l : List α) (h : l ≠ []) :
    (a :: l).getLast? = l.getLast? := by
  cases l with
  | nil => exact absurd rfl h
  | cons b t => rw [List.getLast?_cons, List.getLast?_cons]; simp

theorem collectPages_spec (fuel : Nat) :
    ∀ (items : List Str) (cps : Option Nat) (cursor : Nat),
      items.length - cursor < fuel →
      (((collectPages fuel items cps cursor).map PageResult.slice).flatten =
          items.drop cursor) ∧
        (((collectPages fuel items cps cursor).map PageResult.hasMore).getLast? =
          some false) ∧
        (∀ p ∈ (collectPages fuel items cps cursor).dropLast, p.hasMore = true) := by
  induction fuel with
  | zero => intro items cps cursor h; exact absurd h (Nat.not_lt_zero _)
  | succ fuel ih =>
    intro items cps cursor h
    have hunf : collectPages (fuel + 1) items cps cursor =
        (if (buildPaginatedResponse items cursor cps).hasMore then
          buildPaginatedResponse items cursor cps ::
            collectPages fuel items (some 10)
              (buildPaginatedResponse items cursor cps).nextIndex
        else [buildPaginatedResponse items cursor cps]) := rfl
    set p := buildPaginatedResponse items cursor cps with hp
    have hslice : p.slice = (items.drop cursor).take (jsOrNat cps 10) := rfl
    have hnext : p.nextIndex = cursor + p.slice.length := rfl
    have hmore : p.hasMore = decide (cursor + p.slice.length < items.length) := rfl
    by_cases hm : p.hasMore
    · have hlt : cursor + p.slice.length < items.length := by
        rw [hmore] at hm; exact of_decide_eq_true hm
      have hpos : 0 < p.slice.length := by
        rcases Nat.eq_zero_or_pos p.slice.length with h0 | h0
        · exfalso
          have hdrop : items.drop cursor ≠ [] := by
            intro hnil
            have := List.drop_eq_nil_iff.mp hnil
            omega
          have hne : p.slice ≠ [] := by
            rw [hslice]
            intro htake
            rcases List.take_eq_nil_iff.mp htake with h1 | h1
            · exact absurd h1 (Nat.pos_iff_ne_zero.mp (jsOrNat_pos cps))
            · exact hdrop h1
          exact hne (List.eq_nil_of_length_eq_zero h0)
        · exact h0
      have hfuel : items.length - p.nextIndex < fuel := by rw [hnext]; omega
      obtain ⟨ih1, ih2, ih3⟩ := ih items (some 10) p.nextIndex hfuel
      have hrecne : collectPages fuel items (some 10) p.nextIndex ≠ [] := by
        intro hnil
        rw [hnil] at ih2
        exact Option.noConfusion ih2
      rw [hunf, if_pos hm]
      refine ⟨?_, ?_, ?_⟩
      · show p.slice ++ _ = _
        rw [ih1, hnext, hslice, ← List.drop_drop]
        calc ((items.drop cursor).take (jsOrNat cps 10)) ++
              List.drop ((items.drop cursor).take (jsOrNat cps 10)).length
                (items.drop cursor)
            = (items.drop cursor).take ((items.drop cursor).take (jsOrNat cps 10)).length ++
              List.drop ((items.drop cursor).take (jsOrNat cps 10)).length
                (items.drop cursor) := by rw [take_length_take]
          _ = items.drop cursor := List.take_append_drop _ _
      · rw [List.map_cons]
        rw [getLast?_cons_ne _ _ (fun hnil => hrecne (List.map_eq_nil_iff.mp hnil))]
        exact ih2
      · intro q hq
        rw [List.dropLast_cons_of_ne_nil hrecne] at hq
        rcases List.mem_cons.mp hq with rfl | hq'
        · exact hm
        · exact ih3 q hq'
    · have hmfalse : p.hasMore = false := Bool.not_eq_true _ ▸ hm
      have hge : items.length ≤ cursor + p.slice.length := by
        by_contra hc
        push_neg at hc
        exact hm (by rw [hmore]; exact decide_eq_true hc)
      rw [hunf, if_neg hm]
      refine ⟨?_, by simp [hmfalse], by simp⟩
      show p.slice ++ [] = _
      rw [List.append_nil, hslice]
      have hlen : (items.drop cursor).length ≤ jsOrNat cps 10 := by
        have hsl : p.slice.length = min (jsOrNat cps 10) (items.drop cursor).length := by
          rw [hslice, List.length_take]
        rw [List.length_drop] at hsl
        rw [List.length_drop]
        omega
      exact List.take_of_length_le hlen

/-- Claim C5: pagination is exhaustive.  Starting from cursor 0 and repeatedly
taking pages (each page slicing `items[cursor : cursor+pageSize]` and
advancing the cursor by the slice length, exactly as the list path and the
continuation path do) until `hasMore` is false, the concatenation of the page
slices is the original item list — no duplicates, no omissions — every
non-final page reports `hasMore = true`, and the final page reports
`hasMore = false`. -/
theorem claim_C5 (items : List Str) (cps : Option Nat) (hne : items ≠ []) :
    (((collectPages (items.length + 1) items cps 0).map PageResult.slice).flatten =
        items) ∧
      (((collectPages (items.length + 1) items cps 0).map PageResult.hasMore).getLast? =
        some false) ∧
      (∀ p ∈ (collectPages (items.length + 1) items cps 0).dropLast,
        p.hasMore = true) := by
  have h := collectPages_spec (items.length + 1) items cps 0 (by omega)
  simpa using h

/-- Witness for C5 at a concrete three-item list paged two at a time. -/
theorem claim_C5_witness :
    (((collectPages 4 [str "a", str "b", str "c"] (some 2) 0).map
        PageResult.slice).flatten = [str "a", str "b", str "c"]) ∧
      (((collectPages 4 [str "a", str "b", str "c"] (some 2) 0).map
        PageResult.hasMore).getLast? = some false) ∧
      (∀ p ∈ (collectPages 4 [str "a", str "b", str "c"] (some 2) 0).dropLast,
        p.hasMore = true) :=
  claim_C5 [str "a", str "b", str "c"] (some 2) (by decide)

/-- Claim C10: a requested quantity sets only the first page's size; every
continuation ("ver más") page is built with page size 10 regardless of the
quantity stored nowhere in the pagination state. -/
theorem claim_C10 (items : List Str) (requestedQuantity : Option Nat) (st : PagState) :
    ((listPathUpdate items requestedQuantity).1.slice =
        items.take (jsOrNat requestedQuantity 10)) ∧
      ((listPathUpdate items requestedQuantity).2 = some st →
        (moreUpdate st).1.slice = (items.drop st.index).take 10) := by
  constructor
  · have hps : jsOrNat (some (jsOrNat requestedQuantity 10)) 10 =
        jsOrNat requestedQuantity 10 := by
      unfold jsOrNat
      have := jsOrNat_pos requestedQuantity
      cases requestedQuantity with
      | none => rfl
      | some n => dsimp only at this ⊢; split_ifs <;> omega
    show ((items.drop 0).take (jsOrNat (some (jsOrNat requestedQuantity 10)) 10)) = _
    simp only [hps, List.drop_zero]
  · intro hst
    unfold listPathUpdate at hst
    dsimp only at hst
    split_ifs at hst with hm
    cases hst
    rfl

/-- Concrete items list for the C10 witness: fifteen one-character strings. -/
def exItemsC10 : List Str := (List.range 15).map (fun n => [n])

/-- Witness for C10: a first page of requested size 3 over 15 items leaves
state `⟨items, 3⟩`, and the continuation page then has size 10, not 3. -/
theorem claim_C10_witness :
    (moreUpdate ⟨exItemsC10, 3⟩).1.slice = (exItemsC10.drop 3).take 10 :=
  (claim_C10 exItemsC10 (some 3) ⟨exItemsC10, 3⟩).2 (by decide)

-- ### Query Intent Resolver (`aiAgent.ts`)

/-- `s.startsWith(pat)` on codepoint lists. -/
def startsWithStr : Str → Str → Bool
  | _, [] => true
  | [], _ :: _ => false
  | c :: s, p :: ps => c == p && startsWithStr s ps

/-- JS `String.prototype.includes`: `pat` occurs somewhere in `s`. -/
def containsSub (s pat : Str) : Bool :=
  startsWithStr s pat ||
    match s with
    | [] => false
    | _ :: rest => containsSub rest pat

/-- The regex `/ver\s+mas/` matching at the start of `s`: literal `ver`, one
or more whitespace characters, literal `mas`. -/
def verMasAt (s : Str) : Bool :=
  startsWithStr s (str "ver") &&
    (let r := s.drop 3
     let w := r.takeWhile isWsN
     !w.isEmpty && startsWithStr (r.drop w.length) (str "mas"))

/-- `isMoreQuery` of `aiAgent.ts`: `/ver\s+mas/.test(queryText)`. -/
def isMoreQuery (s : Str) : Bool :=
  verMasAt s ||
    match s with
    | [] => false
    | _ :: rest => isMoreQuery rest

/-- The trigger list of `isListIntent`. -/
def listTriggers : List Str :=
  [str "quien toca", str "quien toca hoy", str "toca hoy", str "lista",
   str "clientes", str "dame", str "muestrame", str "muéstrame", str "rojo",
   str "negro", str "amarillo", str "verde", str "prioridad",
   str "prioritarios", str "faltan", str "falta", str "faltantes",
   str "orden", str "ordenados", str "priorizar"]

/-- `isListIntent` of `aiAgent.ts`. -/
def isListIntent (queryText : Str) : Bool :=
  listTriggers.any (fun trigger => containsSub queryText trigger)

/-- The weekday names of `resolveDayFilter`. -/
def dayNames : List Str :=
  [str "lunes", str "martes", str "miercoles", str "jueves", str "viernes",
   str "sabado", str "domingo"]

/-- `resolveDayFilter` of `aiAgent.ts`.  The current weekday (a value of
`new Date().toLocaleDateString(...)`, real time being outside the embedding)
is passed as the `today` argument. -/
def resolveDayFilter (queryText today : Str) : Option Str :=
  match dayNames.find? (fun day => containsSub queryText day) with
  | some day => some day
  | none =>
    if containsSub queryText (str "hoy") then some (normalizeText today)
    else none

/-- `resolveColorFilter` of `aiAgent.ts`. -/
def resolveColorFilter (queryText : Str) : Option Str :=
  if containsSub queryText (str "negro") then some (str "NEGRO")
  else if containsSub queryText (str "rojo") then some (str "ROJO")
  else if containsSub queryText (str "amarillo") then some (str "AMARILLO")
  else if containsSub queryText (str "verde") then some (str "VERDE")
  else none

/-- Which of the three branches of `processUserQuery` handles a query. -/
inductive QueryPath where
  | continuation | listPath | fallback
deriving DecidableEq, Repr

/-- The branch structure of `processUserQuery` after the route data is
loaded: continuation check on the normalized query first, then the
deterministic list path guarded by
`listRequested || (dayFilter && !isAudio) || (colorFilter && !isAudio)`
with `listRequested = !isAudio && isListIntent(...)`, else the generative
fallback. -/
def dispatch (today query : Str) (isAudio : Bool) : QueryPath :=
  let normalizedQuery := normalizeText query
  if isMoreQuery normalizedQuery then .continuation
  else
    let listRequested := !isAudio && isListIntent normalizedQuery
    let dayFilter := resolveDayFilter normalizedQuery today
    let colorFilter := resolveColorFilter normalizedQuery
    if listRequested || (dayFilter.isSome && !isAudio) ||
        (colorFilter.isSome && !isAudio) then .listPath
    else .fallback

/-- Claim C7: an audio query that is not a continuation query never takes the
deterministic list/day/color path — it is always delegated to the generative
fallback, whatever the query text and whatever `today` resolves to. -/
theorem claim_C7 (today query : Str)
    (hnc : isMoreQuery (normalizeText query) = false) :
    dispatch today query true = .fallback := by
  simp [dispatch, hnc]

/-- Witness for C7: the audio query "hola" (not a continuation) goes to the
fallback. -/
theorem claim_C7_witness : dispatch (str "lunes") (str "hola") true = .fallback :=
  claim_C7 (str "lunes") (str "hola") (by decide)

-- ### Schema Reconciler: three `processCsvUpload` variants

/-- `xs[i]?.trim() || ""`: the i-th cell of a row, trimmed, empty when the
row is shorter. -/
def cell (xs : List Str) (i : Nat) : Str := trimStr (xs.getD i [])

/-- One stored `routeData` record (`uploadedAt` is set by the store and not
modelled). -/
structure RecordM where
  routeCode : Str
  clientCode : Str
  clientName : Str
  visitDay : Str
  data : List (Str × Str)
  batchId : Str
deriving DecidableEq, Repr

/-- Accumulator for one data row's core fields and dynamic attribute bag. -/
structure RowAcc where
  routeCode : Str
  clientCode : Str
  clientName : Str
  visitDay : Str
  data : List (Str × Str)
deriving DecidableEq, Repr

/-- JS object assignment `obj[k] = v`: overwrite in place if the key exists,
else append (insertion order preserved). -/
def dictInsert (m : List (Str × Str)) (k v : Str) : List (Str × Str) :=
  if (lookupTab m k).isSome then m.map (fun p => if p.1 = k then (k, v) else p)
  else m ++ [(k, v)]

/-- `standaloneHeaderMap` of `csvParser.ts` (single-header variant); all
values are non-empty. -/
def standaloneHeaderMapS : List (Str × Str) :=
  [(str "EXHIBIDOR_KIWES", str "EXHIBIDOR_KIWES"),
   (str "COLOR_ACTUAL_KIWES", str "COLOR_ACTUAL_KIWES"),
   (str "PACKS_VENDIDOS_KIWES", str "PACKS_VENDIDOS_KIWES"),
   (str "SIGUIENTE_NIVEL_OBJETIVO_KIWES", str "SIGUIENTE_NIVEL_OBJETIVO_KIWES"),
   (str "PACKS_FALTANTES_SIGUIENTE NIVEL_KIWES", str "PACKS_FALTANTES_KIWES"),
   (str "EXHIBIDOR_LEGOS", str "EXHIBIDOR_LEGOS"),
   (str "COLOR_ACTUAL_LEGOS", str "COLOR_ACTUAL_LEGOS"),
   (str "PACKS_VENDIDOS_LEGOS", str "PACKS_VENDIDOS_LEGOS"),
   (str "SIGUIENTE_NIVEL_OBJETIVO_LEGOS", str "SIGUIENTE_NIVEL_OBJETIVO_LEGOS"),
   (str "PACKS_FALTANTES_SIGUIENTE NIVEL_LEGOS", str "PACKS_FALTANTES_LEGOS")]

/-- `standaloneHeaderMap` of the three-row reconciler variant; all values are
non-empty. -/
def standaloneHeaderMap1 : List (Str × Str) :=
  [(str "PACKS_DISPLAYS", str "EXHIBIDOR"),
   (str "DISPLAYS", str "META_PACKS"),
   (str "NEGRO", str "RANGO_NEGRO"),
   (str "ROJO", str "RANGO_ROJO"),
   (str "AMARILLO", str "RANGO_AMARILLO"),
   (str "VERDE", str "RANGO_VERDE")]

/-- Single-header variant: map each raw header cell through the standalone
override table, else normalize it. -/
def mappedHeadersS (rawHeaders : List Str) : List Str :=
  rawHeaders.map (fun h =>
    let key := trimStr h
    match lookupTab standaloneHeaderMapS key with
    | some mapped => mapped
    | none => normalizeKey key)

/-- Is this category cell a reserved marker (`"actual"`/`"necesidad"`,
case-insensitive)? -/
def isMarkerCat (catVal : Str) : Bool :=
  catVal.map lowN = str "actual" ∨ catVal.map lowN = str "necesidad"

/-- Three-row variant: `headers.map((h, i) => h?.trim() ? h : (fallbackHeaders?.[i] || ""))`. -/
def resolvedHeaders1 (headers fallbackHeaders : List Str) : List Str :=
  headers.enum.map (fun p =>
    if trimStr p.2 = [] then fallbackHeaders.getD p.1 [] else p.2)

/-- Generic header-mapping loop: run `stp` (one loop body, returning the
pushed key and the updated running category) over columns `i, i+1, ...` for
`k` steps, threading the running category. -/
def headerFold (stp : Nat → Str → Str × Str) : Nat → Nat → Str → List Str
  | 0, _, _ => []
  | k + 1, i, cur => (stp i cur).1 :: headerFold stp k (i + 1) (stp i cur).2

/-- The running category at the start of iteration `i + steps`, starting at
iteration `i` with running category `cur`. -/
def advCur (stp : Nat → Str → Str × Str) : Nat → Nat → Str → Str
  | 0, _, cur => cur
  | steps + 1, i, cur => advCur stp steps (i + 1) (stp i cur).2

/-- Loop body of the three-row variant's header mapping: a non-blank,
non-marker category cell updates the running category; the standalone table
overrides; otherwise columns at index ≥ 10 get the normalized category as a
`_`-joined prelude to the normalized sub-header. -/
def step1 (cats res : List Str) (i : Nat) (cur : Str) : Str × Str :=
  let cat := cell cats i
  let sub := cell res i
  let cur2 := if cat ≠ [] ∧ isMarkerCat cat = false then cat else cur
  let key0 := if sub ≠ [] then normalizeKey sub else []
  let key :=
    match (if key0 ≠ [] then lookupTab standaloneHeaderMap1 key0 else none) with
    | some mapped => mapped
    | none =>
      if key0 ≠ [] ∧ 10 ≤ i then
        let useCat := if cat = [] ∨ isMarkerCat cat = true then cur2 else cat
        if useCat ≠ [] then normalizeKey useCat ++ (95 :: key0) else key0
      else key0
  (key, cur2)

/-- Loop body of the two-row variant's header mapping: ANY non-blank category
cell (markers included) updates the running category; columns at index ≥ 10
with a non-empty running category get it as a `_`-joined prelude (raw, not
normalized). -/
def step2 (cats heads : List Str) (i : Nat) (cur : Str) : Str × Str :=
  let cat := cell cats i
  let sub := cell heads i
  let cur2 := if cat ≠ [] then cat else cur
  let key := if cur2 ≠ [] ∧ 10 ≤ i ∧ sub ≠ [] then cur2 ++ (95 :: sub) else sub
  (key, cur2)

/-- Header map of the three-row reconciler variant. -/
def mapHeaders1 (cats heads fallbackHeaders : List Str) : List Str :=
  headerFold (step1 cats (resolvedHeaders1 heads fallbackHeaders))
    (max cats.length (resolvedHeaders1 heads fallbackHeaders).length) 0 []

/-- Header map of the two-row reconciler variant. -/
def mapHeaders2 (cats heads : List Str) : List Str :=
  headerFold (step2 cats heads) (max cats.length heads.length) 0 []

/-- The running category at the start of column `i` in the three-row
variant's header loop ("the previous running category" of the claim). -/
def prevRunningCat1 (cats heads fallbackHeaders : List Str) (i : Nat) : Str :=
  advCur (step1 cats (resolvedHeaders1 heads fallbackHeaders)) i 0 []

/-- Data-row fold for the single-header variant (core-field synonyms
`RUTA`/`RUTA_LOGICA`, `COD_CLIENTE`, `NOMBRE_CLIENTE`, `DIA_VISITA`/`DIA_V`;
every other keyed value, empty included, goes to the dynamic bag). -/
def buildRowS (heads row : List Str) : RowAcc :=
  (List.range heads.length).foldl
    (fun acc j =>
      let key := heads.getD j []
      let value := cell row j
      if key = [] then acc
      else if key = str "RUTA" ∨ key = str "RUTA_LOGICA" then
        { acc with routeCode := value }
      else if key = str "COD_CLIENTE" then { acc with clientCode := value }
      else if key = str "NOMBRE_CLIENTE" then { acc with clientName := value }
      else if key = str "DIA_VISITA" ∨ key = str "DIA_V" then
        { acc with visitDay := value }
      else { acc with data := dictInsert acc.data key value })
    ⟨[], [], [], [], []⟩

/-- Data-row fold for the three-row variant (core keys `RUTA_LOGICA`,
`COD_CLIENTE`, `NOMBRE_CLIENTE`, `DIA_V`; non-empty dynamic values whose
normalized form is a standalone-table key are dropped). -/
def buildRow1 (heads row : List Str) : RowAcc :=
  (List.range heads.length).foldl
    (fun acc j =>
      let key := heads.getD j []
      let value := cell row j
      if key = [] then acc
      else if key = str "RUTA_LOGICA" then { acc with routeCode := value }
      else if key = str "COD_CLIENTE" then { acc with clientCode := value }
      else if key = str "NOMBRE_CLIENTE" then { acc with clientName := value }
      else if key = str "DIA_V" then { acc with visitDay := value }
      else if value = [] then acc
      else if (lookupTab standaloneHeaderMap1 (normalizeKey value)).isSome then acc
      else { acc with data := dictInsert acc.data key value })
    ⟨[], [], [], [], []⟩

/-- Data-row fold for the two-row variant (core keys are the raw header texts
`RUTA LÓGICA`, `COD CLIENTE`, `NOMBRE CLIENTE`, `DIA V`; only non-empty
values enter the dynamic bag). -/
def buildRow2 (heads row : List Str) : RowAcc :=
  (List.range heads.length).foldl
    (fun acc j =>
      let key := heads.getD j []
      let value := cell row j
      if key = [] then acc
      else if key = str "RUTA LÓGICA" then { acc with routeCode := value }
      else if key = str "COD CLIENTE" then { acc with clientCode := value }
      else if key = str "NOMBRE CLIENTE" then { acc with clientName := value }
      else if key = str "DIA V" then { acc with visitDay := value }
      else if value = [] then acc
      else { acc with data := dictInsert acc.data key value })
    ⟨[], [], [], [], []⟩

/-- Row validation and record construction, single-header variant: require a
client code, and a route code that is non-empty and not the placeholder
`"0"`/`"0.0"`. -/
def mkRecordS (heads : List Str) (now : Str) (row : List Str) : Option RecordM :=
  let acc := buildRowS heads row
  if acc.clientCode = [] then none
  else if acc.routeCode = [] ∨ acc.routeCode = str "0" ∨ acc.routeCode = str "0.0" then
    none
  else some ⟨acc.routeCode, acc.clientCode, acc.clientName, acc.visitDay, acc.data, now⟩

/-- Row validation and record construction, three-row variant: require route
code and client code non-empty (no placeholder check). -/
def mkRecord1 (heads : List Str) (now : Str) (row : List Str) : Option RecordM :=
  let acc := buildRow1 heads row
  if acc.routeCode = [] ∨ acc.clientCode = [] then none
  else some ⟨acc.routeCode, acc.clientCode, acc.clientName, acc.visitDay, acc.data, now⟩

/-- Row validation and record construction, two-row variant: require route
code and client code non-empty (no placeholder check). -/
def mkRecord2 (heads : List Str) (now : Str) (row : List Str) : Option RecordM :=
  let acc := buildRow2 heads row
  if acc.routeCode = [] ∨ acc.clientCode = [] then none
  else some ⟨acc.routeCode, acc.clientCode, acc.clientName, acc.visitDay, acc.data, now⟩

/-- The records produced for storage by the single-header variant: data rows
start at index 1; rows failing validation are skipped. -/
def entriesS (table : List (List Str)) (now : Str) : List RecordM :=
  (table.drop 1).filterMap (mkRecordS (mappedHeadersS (table.getD 0 [])) now)

/-- The records produced for storage by the three-row variant: data rows
start at index 2 (row 2 doubles as the fallback header row, as in the
source). -/
def entries1 (table : List (List Str)) (now : Str) : List RecordM :=
  (table.drop 2).filterMap
    (mkRecord1 (mapHeaders1 (table.getD 0 []) (table.getD 1 []) (table.getD 2 [])) now)

/-- The records produced for storage by the two-row variant: data rows start
at index 2. -/
def entries2 (table : List (List Str)) (now : Str) : List RecordM :=
  (table.drop 2).filterMap
    (mkRecord2 (mapHeaders2 (table.getD 0 []) (table.getD 1 [])) now)

/-- The snapshot-store effect of the upload tail: when at least one record
was built, `deleteMany({})` then `createMany(entries)`; otherwise both steps
are skipped and the store is untouched. -/
def applyStore (store entries : List RecordM) : List RecordM :=
  if entries = [] then store else entries

/-- The `MalformedUploadError` message of the single-header variant. -/
def msgMinRows2 : Str := str "El archivo CSV debe tener al menos 2 filas (cabeceras y datos)"

/-- The `MalformedUploadError` message of the two/three-row variants. -/
def msgMinRows3 : Str := str "El archivo CSV debe tener al menos 3 filas (categorías, cabeceras y datos)"

/-- `processCsvUpload` of `csvParser.ts` (single-header layout), over the
parsed row table; `now` is the batch timestamp and the returned list is the
resulting store content. -/
def processCsvUploadS (table : List (List Str)) (now : Str) (store : List RecordM) :
    List RecordM × Except Str (Nat × Str) :=
  if table.length < 2 then (store, .error msgMinRows2)
  else (applyStore store (entriesS table now), .ok ((entriesS table now).length, now))

/-- `processCsvUpload` of the three-row reconciler variant. -/
def processCsvUpload1 (table : List (List Str)) (now : Str) (store : List RecordM) :
    List RecordM × Except Str (Nat × Str) :=
  if table.length < 3 then (store, .error msgMinRows3)
  else (applyStore store (entries1 table now), .ok ((entries1 table now).length, now))

/-- `processCsvUpload` of the two-row reconciler variant. -/
def processCsvUpload2 (table : List (List Str)) (now : Str) (store : List RecordM) :
    List RecordM × Except Str (Nat × Str) :=
  if table.length < 3 then (store, .error msgMinRows3)
  else (applyStore store (entries2 table now), .ok ((entries2 table now).length, now))

-- ### Header-mapping lemmas

theorem headerFold_getD (stp : Nat → Str → Str × Str) :
    ∀ (j k i : Nat) (cur : Str), j < k →
      (headerFold stp k i cur).getD j [] = (stp (i + j) (advCur stp j i cur)).1 := by
  intro j
  induction j with
  | zero =>
    intro k i cur hk
    cases k with
    | zero => exact absurd hk (Nat.not_lt_zero _)
    | succ k' => simp [headerFold, advCur]
  | succ j ih =>
    intro k i cur hk
    cases k with
    | zero => exact absurd hk (Nat.not_lt_zero _)
    | succ k' =>
      show (headerFold stp k' (i + 1) (stp i cur).2).getD j [] = _
      rw [ih k' (i + 1) (stp i cur).2 (Nat.lt_of_succ_lt_succ hk)]
      have harith : i + 1 + j = i + (j + 1) := by omega
      rw [harith]
      rfl

theorem normalizeKey_ne_nil (s : Str) (htrim : trimStr s = s) (hne : s ≠ []) :
    normalizeKey s ≠ [] := by
  unfold normalizeKey replaceRuns
  rw [htrim]
  cases s with
  | nil => exact absurd rfl hne
  | cons c rest =>
    rw [List.map_cons]
    show replAux false (upN c :: rest.map upN) ≠ []
    cases hws : isWsSlash (upN c) <;> simp [replAux, hws]

theorem trimStr_cell (xs : List Str) (i : Nat) : trimStr (cell xs i) = cell xs i :=
  trimStr_idem _

theorem step1_key (cats res : List Str) (i : Nat) (cur : Str)
    (hcat : cell cats i = [] ∨ isMarkerCat (cell cats i) = true)
    (hsub : cell res i ≠ [])
    (hstd : lookupTab standaloneHeaderMap1 (normalizeKey (cell res i)) = none)
    (h10 : 10 ≤ i) (hcur : cur ≠ []) :
    (step1 cats res i cur).1 =
      normalizeKey cur ++ (95 :: normalizeKey (cell res i)) ∧
      (step1 cats res i cur).2 = cur := by
  have hkey0 : normalizeKey (cell res i) ≠ [] :=
    normalizeKey_ne_nil _ (trimStr_cell res i) hsub
  have hnotupd : ¬(cell cats i ≠ [] ∧ isMarkerCat (cell cats i) = false) := by
    rcases hcat with h | h
    · intro hc; exact hc.1 h
    · intro hc; rw [h] at hc; exact Bool.noConfusion hc.2
  unfold step1
  dsimp only
  rw [if_neg hnotupd, if_pos hsub, if_pos hkey0, hstd]
  dsimp only
  rw [if_pos ⟨hkey0, h10⟩, if_pos hcat, if_pos hcur]
  exact ⟨rfl, rfl⟩

theorem step2_key (cats heads : List Str) (i : Nat) (cur : Str)
    (hcat : cell cats i ≠ []) (hsub : cell heads i ≠ []) (h10 : 10 ≤ i) :
    (step2 cats heads i cur).1 = cell cats i ++ (95 :: cell heads i) ∧
      (step2 cats heads i cur).2 = cell cats i := by
  unfold step2
  dsimp only
  rw [if_pos hcat, if_pos ⟨hcat, h10, hsub⟩]
  exact ⟨rfl, rfl⟩

/-- Claim C1, amended.  Three-row layout (first conjunct): the running
category persists across blank-category columns, marker cells
("actual"/"necesidad", case-insensitive) do not update it, and a column at
index ≥ 10 whose category slot is blank or a marker, whose resolved
sub-header is non-blank and not a standalone-override key, and for which the
running category is non-empty, resolves to the normalized running category
joined to the normalized sub-header by `_`.  Two-row layout (second
conjunct): there is no marker exemption — any non-blank category cell,
markers included, becomes the running category and is the (raw) category
joined as the key's first component at index ≥ 10. -/
theorem claim_C1_amended :
    (∀ (cats heads fallbackHeaders : List Str) (i : Nat),
      10 ≤ i →
      i < max cats.length (resolvedHeaders1 heads fallbackHeaders).length →
      (cell cats i = [] ∨ isMarkerCat (cell cats i) = true) →
      cell (resolvedHeaders1 heads fallbackHeaders) i ≠ [] →
      lookupTab standaloneHeaderMap1
        (normalizeKey (cell (resolvedHeaders1 heads fallbackHeaders) i)) = none →
      prevRunningCat1 cats heads fallbackHeaders i ≠ [] →
      (mapHeaders1 cats heads fallbackHeaders).getD i [] =
        normalizeKey (prevRunningCat1 cats heads fallbackHeaders i) ++
          (95 :: normalizeKey (cell (resolvedHeaders1 heads fallbackHeaders) i))) ∧
    (∀ (cats heads : List Str) (i : Nat),
      10 ≤ i → i < max cats.length heads.length →
      cell cats i ≠ [] → cell heads i ≠ [] →
      (mapHeaders2 cats heads).getD i [] =
        cell cats i ++ (95 :: cell heads i)) := by
  constructor
  · intro cats heads fallbackHeaders i h10 hlt hcat hsub hstd hcur
    unfold mapHeaders1
    rw [headerFold_getD _ i _ 0 [] hlt]
    rw [Nat.zero_add]
    exact (step1_key cats _ i _ hcat hsub hstd h10 hcur).1
  · intro cats heads i h10 hlt hcat hsub
    unfold mapHeaders2
    rw [headerFold_getD _ i _ 0 [] hlt]
    rw [Nat.zero_add]
    exact (step2_key cats heads i _ hcat hsub h10).1

/-- Category row of the C1 counterexample: blank up to column 9, `KIWE` at
column 10, the marker `ACTUAL` at column 11. -/
def exCatsC1 : List Str :=
  [[], [], [], [], [], [], [], [], [], [], str "KIWE", str "ACTUAL"]

/-- Sub-header row of the C1 counterexample: `NEGRO` at column 10, `ROJO` at
column 11. -/
def exHeadsC1 : List Str :=
  [[], [], [], [], [], [], [], [], [], [], str "NEGRO", str "ROJO"]

/-- Counterexample to C1 as stated: in the two-row layout, the category cell
`ACTUAL` at column 11 DOES update the running category (the claim says marker
cells never do), so column 11 resolves to `ACTUAL_ROJO` instead of carrying
the previous running category `KIWE` (`KIWE_ROJO`). -/
theorem claim_C1_cex :
    (mapHeaders2 exCatsC1 exHeadsC1).getD 11 [] = str "ACTUAL_ROJO" ∧
      (mapHeaders2 exCatsC1 exHeadsC1).getD 11 [] ≠ str "KIWE_ROJO" := by
  decide

/-- Category row of the C1 witness table: `KIWE` at column 10, blank at 11,
the marker `ACTUAL` at column 12. -/
def exCatsC1w : List Str :=
  [[], [], [], [], [], [], [], [], [], [], str "KIWE", [], str "ACTUAL"]

/-- Header row of the C1 witness table: sub-header `KX2` at column 12. -/
def exHeadsC1w : List Str :=
  [[], [], [], [], [], [], [], [], [], [], str "N1", str "N2", str "KX2"]

/-- Witness for the amended C1: in the three-row layout with category `KIWE`
at column 10 and the marker `ACTUAL` in column 12's category slot, column
12's resolved key still carries the `KIWE` category. -/
theorem claim_C1_witness :
    (mapHeaders1 exCatsC1w exHeadsC1w []).getD 12 [] = str "KIWE_KX2" := by
  have h := claim_C1_amended.1 exCatsC1w exHeadsC1w [] 12 (by decide) (by decide)
    (by decide) (by decide) (by decide) (by decide)
  rw [h]
  decide

-- ### Record invariants and upload behaviour

theorem mem_entriesS (table : List (List Str)) (now : Str) (r : RecordM)
    (hr : r ∈ entriesS table now) :
    r.clientCode ≠ [] ∧ r.routeCode ≠ [] ∧ r.routeCode ≠ str "0" ∧
      r.routeCode ≠ str "0.0" := by
  rcases List.mem_filterMap.mp hr with ⟨row, _, hmk⟩
  unfold mkRecordS at hmk
  dsimp only at hmk
  split_ifs at hmk with h1 h2
  cases hmk
  push_neg at h2
  exact ⟨h1, h2.1, h2.2.1, h2.2.2⟩

theorem mem_entries1 (table : List (List Str)) (now : Str) (r : RecordM)
    (hr : r ∈ entries1 table now) :
    r.clientCode ≠ [] ∧ r.routeCode ≠ [] := by
  rcases List.mem_filterMap.mp hr with ⟨row, _, hmk⟩
  unfold mkRecord1 at hmk
  dsimp only at hmk
  split_ifs at hmk with h1
  cases hmk
  push_neg at h1
  exact ⟨h1.2, h1.1⟩

theorem mem_entries2 (table : List (List Str)) (now : Str) (r : RecordM)
    (hr : r ∈ entries2 table now) :
    r.clientCode ≠ [] ∧ r.routeCode ≠ [] := by
  rcases List.mem_filterMap.mp hr with ⟨row, _, hmk⟩
  unfold mkRecord2 at hmk
  dsimp only at hmk
  split_ifs at hmk with h1
  cases hmk
  push_neg at h1
  exact ⟨h1.2, h1.1⟩

/-- Claim C2, amended.  Every record produced and stored by any variant has a
non-empty `clientCode` and a non-empty `routeCode`, but only the
single-header variant additionally rejects the placeholder route codes
`"0"`/`"0.0"`; the two/three-row variants store such records (see the
counterexample). -/
theorem claim_C2_amended (table : List (List Str)) (now : Str) :
    (∀ r ∈ entriesS table now,
      r.clientCode ≠ [] ∧ r.routeCode ≠ [] ∧ r.routeCode ≠ str "0" ∧
        r.routeCode ≠ str "0.0") ∧
    (∀ r ∈ entries1 table now, r.clientCode ≠ [] ∧ r.routeCode ≠ []) ∧
    (∀ r ∈ entries2 table now, r.clientCode ≠ [] ∧ r.routeCode ≠ []) :=
  ⟨fun r hr => mem_entriesS table now r hr,
   fun r hr => mem_entries1 table now r hr,
   fun r hr => mem_entries2 table now r hr⟩

/-- The C2 counterexample upload for the three-row variant: a data row whose
route code is the placeholder `"0"`. -/
def exTableC2 : List (List Str) :=
  [[], [str "RUTA LOGICA", str "COD CLIENTE"], [str "0", str "C1"]]

/-- Counterexample to C2 as stated: the three-row variant stores a record
whose `routeCode` is the literal placeholder `"0"` (the claim says no variant
ever stores one). -/
theorem claim_C2_cex :
    (processCsvUpload1 exTableC2 (str "B1") []).1 =
      [⟨str "0", str "C1", [], [], [], str "B1"⟩] := by
  decide

/-- The C2 witness upload for the single-header variant. -/
def exTableC2w : List (List Str) :=
  [[str "RUTA", str "COD_CLIENTE"], [str "R1", str "C1"]]

/-- Witness for the amended C2, on the single record the single-header
variant builds from `exTableC2w`. -/
theorem claim_C2_witness :
    (str "C1" : Str) ≠ [] ∧ (str "R1" : Str) ≠ [] ∧
      (str "R1" : Str) ≠ str "0" ∧ (str "R1" : Str) ≠ str "0.0" :=
  (claim_C2_amended exTableC2w (str "B1")).1
    ⟨str "R1", str "C1", [], [], [], str "B1"⟩ (by decide)

/-- Claim C6: each variant fails (with its `MalformedUploadError` message)
exactly when the parsed table has fewer rows than its minimum (2 for the
single-header layout, 3 for the two/three-row layouts); on failure the store
is untouched; with at least the minimum rows the result is success carrying
the count of records built for storage. -/
theorem claim_C6 (table : List (List Str)) (now : Str) (store : List RecordM) :
    ((processCsvUploadS table now store).2 = .error msgMinRows2 ↔ table.length < 2) ∧
    (table.length < 2 → processCsvUploadS table now store = (store, .error msgMinRows2)) ∧
    (2 ≤ table.length →
      (processCsvUploadS table now store).2 = .ok ((entriesS table now).length, now)) ∧
    ((processCsvUpload1 table now store).2 = .error msgMinRows3 ↔ table.length < 3) ∧
    (table.length < 3 → processCsvUpload1 table now store = (store, .error msgMinRows3)) ∧
    (3 ≤ table.length →
      (processCsvUpload1 table now store).2 = .ok ((entries1 table now).length, now)) ∧
    ((processCsvUpload2 table now store).2 = .error msgMinRows3 ↔ table.length < 3) ∧
    (table.length < 3 → processCsvUpload2 table now store = (store, .error msgMinRows3)) ∧
    (3 ≤ table.length →
      (processCsvUpload2 table now store).2 = .ok ((entries2 table now).length, now)) := by
  unfold processCsvUploadS processCsvUpload1 processCsvUpload2
  split_ifs with h1 h2 <;>
    refine ⟨?_, ?_, ?_, ?_, ?_, ?_, ?_, ?_, ?_⟩ <;>
    simp_all

/-- Witness for C6 at the empty table (0 rows): all three variants reject it
and leave the store unchanged. -/
theorem claim_C6_witness :
    (processCsvUploadS [] (str "B1") [] = ([], .error msgMinRows2)) ∧
      (processCsvUpload1 [] (str "B1") [] = ([], .error msgMinRows3)) ∧
      (processCsvUpload2 [] (str "B1") [] = ([], .error msgMinRows3)) :=
  ⟨(claim_C6 [] (str "B1") []).2.1 (by decide),
   (claim_C6 [] (str "B1") []).2.2.2.2.1 (by decide),
   (claim_C6 [] (str "B1") []).2.2.2.2.2.2.2.1 (by decide)⟩

/-- Claim C9: when every data row is discarded by validation, the reconciler
(single-header and three-row variants, per the claim's sources) performs
neither the delete nor the insert — the prior store is returned unchanged —
and still reports success with count 0 and the fresh batch id. -/
theorem claim_C9 (table : List (List Str)) (now : Str) (store : List RecordM) :
    (2 ≤ table.length → entriesS table now = [] →
      processCsvUploadS table now store = (store, .ok (0, now))) ∧
    (3 ≤ table.length → entries1 table now = [] →
      processCsvUpload1 table now store = (store, .ok (0, now))) := by
  constructor
  · intro hlen hent
    unfold processCsvUploadS
    rw [if_neg (by omega), hent]
    rfl
  · intro hlen hent
    unfold processCsvUpload1
    rw [if_neg (by omega), hent]
    rfl

/-- C9 witness table for the single-header variant: the only data row has an
empty client code and is dropped. -/
def exTableC9S : List (List Str) := [[str "COD_CLIENTE"], [[]]]

/-- C9 witness table for the three-row variant: the only data row has an
empty route code and is dropped. -/
def exTableC91 : List (List Str) := [[], [str "COD CLIENTE"], [str "X"]]

/-- Witness for C9: uploads whose every data row fails validation leave a
one-record store untouched and report success with count 0. -/
theorem claim_C9_witness :
    (processCsvUploadS exTableC9S (str "B1")
        [⟨str "R9", str "C9", [], [], [], str "B0"⟩] =
      ([⟨str "R9", str "C9", [], [], [], str "B0"⟩], .ok (0, str "B1"))) ∧
    (processCsvUpload1 exTableC91 (str "B1")
        [⟨str "R9", str "C9", [], [], [], str "B0"⟩] =
      ([⟨str "R9", str "C9", [], [], [], str "B0"⟩], .ok (0, str "B1"))) :=
  ⟨(claim_C9 exTableC9S (str "B1") [⟨str "R9", str "C9", [], [], [], str "B0"⟩]).1
      (by decide) (by decide),
   (claim_C9 exTableC91 (str "B1") [⟨str "R9", str "C9", [], [], [], str "B0"⟩]).2
      (by decide) (by decide)⟩
